import Mathlib

/-!
Verification of the SearchTheScience orchestration core.

Shallow embedding of `searchthescience/search_functions.py`,
`searchthescience/ddgs_async.py` and `searchthescience/result_mapper.py`.
External libraries (BM25Okapi from rank_bm25, the tiktoken encoder, the
asyncio scheduler and the network clients) are modelled as oracles passed
in as function parameters; everything the repository itself computes is
translated faithfully.

Conventions:
* Python dictionary access `d.get(k, default)` on JSON payloads is modelled
  with `Option (Option String)`: the outer `Option` is key presence, the
  inner one distinguishes JSON `null` from a string value.
* Python truthiness of an optional string (`if value:`) is `truthy`:
  `None` and the empty string are falsy.
* Machine floats (BM25 scores, delays in seconds) are modelled as `ℚ`;
  the repository only multiplies and compares them.
-/

namespace SearchTheScience

/-- Python `a or b` on optional strings: `None` and `""` are falsy. -/
def pyOr (a b : Option String) : Option String :=
  match a with
  | some s => if s = "" then b else some s
  | none => b

/-- Python truthiness of an optional string value. -/
def truthy (a : Option String) : Bool :=
  match a with
  | some s => !(s = "")
  | none => false

/-- Python `str(v)` as used inside an f-string, where `v` is an optional
string (`None` renders as the text `"None"`). -/
def pyStrOf (v : Option String) : String :=
  match v with
  | some s => s
  | none => "None"

/-- `d.get(k, default)` over the key-presence encoding. -/
def dictGet (f : Option (Option String)) (dflt : Option String) : Option String :=
  f.getD dflt

/-- Python `s.split()`: split on whitespace runs, dropping empty pieces. -/
def splitWs (s : String) : List String :=
  (s.split Char.isWhitespace).filter (fun p => !(p = ""))

/-- Python `enumerate`, starting from index `k`. -/
def enumFromQ (k : Nat) : List α → List (Nat × α)
  | [] => []
  | x :: xs => (k, x) :: enumFromQ (k + 1) xs

/-- Python `enumerate(l)`. -/
def enumerate (l : List α) : List (Nat × α) := enumFromQ 0 l

/-- Insert into a descending-by-score list, keeping the inserted element in
front of equal scores: together with `sortDesc` below this reproduces
Python `sorted(xs, key=lambda x: x[1], reverse=True)`, a stable descending
sort by the second component. -/
def insertDesc (x : Nat × ℚ) : List (Nat × ℚ) → List (Nat × ℚ)
  | [] => [x]
  | y :: ys => if y.2 ≤ x.2 then x :: y :: ys else y :: insertDesc x ys

/-- Stable descending sort by score, as produced by
`sorted(enumerate(scores), key=lambda x: x[1], reverse=True)`. -/
def sortDesc : List (Nat × ℚ) → List (Nat × ℚ)
  | [] => []
  | x :: xs => insertDesc x (sortDesc xs)

/-- The `SearchType` enum of `schemas.py` (tags only; the embedded
documentation strings play no role in the orchestration logic). -/
inductive SearchType where
  | ADVANCED | WEB | NEWS | INDEPENDENT_NEWS | SCIENCE_PUBMED
  | SCIENCE_GENERAL | SCIENCE_ARXIV | SCIENCE_BIORXIV | ACADEMIC_PROFILES
  | SEMANTIC_SCHOLAR | RESEARCHGATE | PAPERITY | GOOGLE_SCHOLAR
  | ACADEMIC_SOURCES | OPEN_SCIENCE | REFERENCE | ZENODO | SCHOLAR | PDF
  deriving DecidableEq, Repr

/-- Python `SearchType.member.name`. -/
def SearchType.pyName : SearchType → String
  | .ADVANCED => "ADVANCED"
  | .WEB => "WEB"
  | .NEWS => "NEWS"
  | .INDEPENDENT_NEWS => "INDEPENDENT_NEWS"
  | .SCIENCE_PUBMED => "SCIENCE_PUBMED"
  | .SCIENCE_GENERAL => "SCIENCE_GENERAL"
  | .SCIENCE_ARXIV => "SCIENCE_ARXIV"
  | .SCIENCE_BIORXIV => "SCIENCE_BIORXIV"
  | .ACADEMIC_PROFILES => "ACADEMIC_PROFILES"
  | .SEMANTIC_SCHOLAR => "SEMANTIC_SCHOLAR"
  | .RESEARCHGATE => "RESEARCHGATE"
  | .PAPERITY => "PAPERITY"
  | .GOOGLE_SCHOLAR => "GOOGLE_SCHOLAR"
  | .ACADEMIC_SOURCES => "ACADEMIC_SOURCES"
  | .OPEN_SCIENCE => "OPEN_SCIENCE"
  | .REFERENCE => "REFERENCE"
  | .ZENODO => "ZENODO"
  | .SCHOLAR => "SCHOLAR"
  | .PDF => "PDF"

/-- Modelled from the spec: the package module `searchthescience/schemas.py`
(which defines `SearchTypeStable`) is absent from the source tree; per the
spec the stable tier is the small curated tag set, and the stable search map
in `search_functions.py` enumerates exactly these three tags. -/
inductive SearchTypeStable where
  | SCIENCE_GENERAL | SCIENCE_ARXIV | ZENODO
  deriving DecidableEq, Repr

/-- Python `SearchTypeStable.member.name`. -/
def SearchTypeStable.pyName : SearchTypeStable → String
  | .SCIENCE_GENERAL => "SCIENCE_GENERAL"
  | .SCIENCE_ARXIV => "SCIENCE_ARXIV"
  | .ZENODO => "ZENODO"

/-- The unified `SearchResult` record of `schemas.py`, restricted to the
fields the orchestration core reads.  The field types mirror the pydantic
schema: `href` and `source` are required strings and `authors` is a list
of strings — a constructor call passing `None` for them raises a
`ValidationError` and produces no Result, which the mapper embeddings
below model by returning `Option SearchResult`.  The open
`additional_fields` map (which holds heterogeneous provider-specific
values and is never read by the orchestrator or the ranker) is not
modelled; `extra` models the spec-described open attribute set that
`getattr` can reach on a result (for instance the `background` attribute
set by the PubMed path), since the ranking text extraction reads
attributes by name. -/
structure SearchResult where
  result_type : SearchType
  title : Option String
  href : String
  description : Option String
  published : Option String
  authors : List String
  source : String
  doi : Option String
  extra : List (String × String)
  deriving DecidableEq, Repr

/-- Python `getattr(result, name, None)` for the string-valued attributes
the ranking text extraction can name. -/
def getAttr (r : SearchResult) (name : String) : Option String :=
  if name = "title" then r.title
  else if name = "href" then some r.href
  else if name = "description" then r.description
  else if name = "published" then r.published
  else if name = "source" then some r.source
  else if name = "doi" then r.doi
  else match r.extra.find? (fun p => p.1 = name) with
  | some p => some p.2
  | none => none

/-- `get_text` inside `rerank_results` (search_functions.py lines 734-755):
resolve each field with the body/abstract fallback chains and join the
truthy values with single spaces. -/
def get_text (fields : List String) (r : SearchResult) : String :=
  let parts := fields.filterMap (fun field =>
    let value :=
      if field = "body" then
        pyOr (getAttr r "body") (pyOr (getAttr r "abstract") (getAttr r "background"))
      else if field = "abstract" then
        pyOr (getAttr r "abstract") (pyOr (getAttr r "body") (getAttr r "background"))
      else getAttr r field
    if truthy value then value else none)
  String.intercalate " " parts

/-- Default `fields` of `rerank_results`. -/
def default_fields : List String := ["title", "body", "abstract", "background"]

/-- Default `max_tokens` of `rerank_results`. -/
def default_max_tokens : Nat := 4000

/-- The token-budget loop of `rerank_results` (lines 770-781): walk the
ranked list with a running total; append a result while the running total
plus its token count stays within the budget, and break at the first
result that does not fit. -/
def limitTokens (tok : SearchResult → Nat) (maxTokens : Nat) :
    Nat → List SearchResult → List SearchResult
  | _, [] => []
  | total, r :: rest =>
    if total + tok r ≤ maxTokens then
      r :: limitTokens tok maxTokens (total + tok r) rest
    else []

/-- `rerank_results` (search_functions.py lines 707-783).  The BM25 index of
the external rank_bm25 library is the oracle `bm25` (tokenized corpus and
tokenized query to one score per document); the external tiktoken encoder
is the oracle `enc` (text to token count, `len(encoding.encode(text))`). -/
def rerank_results (bm25 : List (List String) → List String → List ℚ)
    (enc : String → Nat) (query : String) (results : List SearchResult)
    (fields : List String) (max_tokens : Nat) : List SearchResult :=
  if results.isEmpty then results
  else
    let tokenized_corpus := results.map (fun r => splitWs (get_text fields r).toLower)
    let tokenized_query := splitWs query.toLower
    let scores := bm25 tokenized_corpus tokenized_query
    let scored_indices := sortDesc (enumerate scores)
    let ranked_results := scored_indices.filterMap (fun p => results.get? p.1)
    limitTokens (fun r => enc (get_text fields r)) max_tokens 0 ranked_results

/-- The three backend callables that appear as values of the search maps in
`search_functions.py` (lines 608-634): `search_openalex`, `search_arxiv`
and `search_zenodo`.  Their network behaviour is an oracle. -/
inductive BackendId where
  | openalexB | arxivB | zenodoB
  deriving DecidableEq, Repr

/-- `stable_search_map` (lines 608-612): every `SearchTypeStable` tag is a
key; dictionary lookup is modelled as an `Option`-valued total function. -/
def stable_search_map : SearchTypeStable → Option BackendId
  | .SCIENCE_GENERAL => some .openalexB
  | .SCIENCE_ARXIV => some .arxivB
  | .ZENODO => some .zenodoB

/-- `alpha_search_map` (lines 615-634): only the three working tags are
keys; all DDG-dependent entries are commented out in the source. -/
def alpha_search_map : SearchType → Option BackendId
  | .SCIENCE_GENERAL => some .openalexB
  | .SCIENCE_ARXIV => some .arxivB
  | .ZENODO => some .zenodoB
  | _ => none

/-- A `Union[SearchQuery, SearchQueryAlpha]` argument of
`multi_search_interface`: the `isinstance` test on the query decides the
tier.  Modelled from the spec for the missing `schemas.py` of the package:
`SearchQuery` carries a `SearchTypeStable` tag and `SearchQueryAlpha` a
`SearchType` tag, each with the query text. -/
inductive MSQuery where
  | stable (search_type : SearchTypeStable) (query : String)
  | alpha (search_type : SearchType) (query : String)
  deriving DecidableEq, Repr

/-- The query text of either query kind. -/
def MSQuery.queryText : MSQuery → String
  | .stable _ q => q
  | .alpha _ q => q

/-- `search_type.name` of either query kind. -/
def MSQuery.typeName : MSQuery → String
  | .stable t _ => t.pyName
  | .alpha t _ => t.pyName

/-- The registry lookup of `execute_search` (lines 649-658): the stable map
for a `SearchQuery`, the alpha map for a `SearchQueryAlpha`. -/
def MSQuery.lookupBackend : MSQuery → Option BackendId
  | .stable t _ => stable_search_map t
  | .alpha t _ => alpha_search_map t

/-- A progress event handed to `logger_callback`: kind and message. -/
abbrev Event := String × String

/-- Outcome of awaiting one backend call, as seen by the `try` block of
`execute_search`: either the returned result list or a raised exception
(carrying `str(e)`). -/
inductive BackendResult where
  | ok (rs : List SearchResult)
  | exn (msg : String)

/-- `execute_search` inside `multi_search_interface` (lines 646-680),
modelled with the progress-event sink present (`logger_callback` not
`None`); the pair is (sub-result, events emitted by this task).  The
backend invocation `await search_map[search_type](search_query.query,
max_results)` is the oracle `behavior`.  Every branch returns a value:
the failure boundary converts a raised exception into an empty sub-result
plus a `search_error` event, so no exception escapes this function. -/
def execute_search (behavior : BackendId → String → Nat → BackendResult)
    (max_results : Nat) (q : MSQuery) : List SearchResult × List Event :=
  let name := q.typeName
  let qt := q.queryText
  match q.lookupBackend with
  | none => ([], [("invalid_search", s!"❌ Invalid search type: {name}")])
  | some b =>
    match behavior b qt max_results with
    | .exn m =>
      ([], [("search_error",
        s!"❌ Error in {name} search for \x27{qt}\x27: {m}")])
    | .ok rs =>
      if rs.isEmpty then
        ([], [("no_results",
          s!"❌ No results found for {name} with query: \x27{qt}\x27")])
      else
        let n := rs.length
        (rs, [("results_found",
          s!"✅ Found {n} results from {name} for: \x27{qt}\x27")])

/-- The aggregation step of `multi_search_interface` (line 693):
`[r for sublist in results if sublist for r in sublist]` — one level of
flattening, skipping falsy (empty) sublists. -/
def flat_results_comp (results : List (List α)) : List α :=
  (results.filter (fun l => !l.isEmpty)).flatten

/-- Default `max_results` of `multi_search_interface`. -/
def default_max_results : Nat := 5

/-- Default `timeout` of `multi_search_interface` (seconds). -/
def default_timeout : ℚ := 15

/-- `multi_search_interface` (search_functions.py lines 637-704), modelled
with the progress-event sink present.  The cooperative scheduler is
abstracted by two parameters: `timedOut` says whether the shared
`asyncio.wait_for` deadline elapsed before `asyncio.gather` completed, and
`completedMask` marks, in that case, the tasks that had already run to
completion (and hence had already emitted their events) when the deadline
fired.  On the timeout path the function returns the empty list and emits
one `timeout` event without ever consulting the per-task results; on the
normal path every task completed, so the event stream is the per-task
events (their true interleaving is scheduler-dependent; the claims only
concern membership and counts) followed by `search_complete`. -/
def multi_search_interface (behavior : BackendId → String → Nat → BackendResult)
    (bm25 : List (List String) → List String → List ℚ) (enc : String → Nat)
    (search_queries : List MSQuery) (max_results : Nat) (timeout : ℚ)
    (timedOut : Bool) (completedMask : List Bool) (rerank : Bool) :
    List SearchResult × List Event :=
  if timedOut then
    let doneEvents :=
      ((search_queries.zip completedMask).filterMap (fun p =>
        if p.2 then some (execute_search behavior max_results p.1).2 else none)).flatten
    ([], doneEvents ++
      [("timeout", s!"❌ Search operations timed out after {timeout} seconds")])
  else
    let perQuery := search_queries.map (execute_search behavior max_results)
    let events := (perQuery.map (fun p => p.2)).flatten
    let flat0 := flat_results_comp (perQuery.map (fun p => p.1))
    let joined := String.intercalate " " (search_queries.map MSQuery.queryText)
    let flat1 :=
      if rerank && !flat0.isEmpty then
        rerank_results bm25 enc joined flat0 default_fields default_max_tokens
      else flat0
    let n := flat1.length
    (flat1, events ++
      [("search_complete", s!"✅ Search complete - found {n} unique results")])

/-! ### The retry/backoff wrapper, `AsyncDDGS._retry` (ddgs_async.py) -/

/-- Outcome of one attempt of the wrapped call inside `_retry`
(`await asyncio.to_thread(func, ...)` under the semaphore): success, the
distinguished `RatelimitException`, or any other exception. -/
inductive AttemptOutcome (α : Type) where
  | ok (v : α)
  | rateLimited
  | otherError

/-- What `_retry` delivers to its caller: the returned value, a
re-raised (propagated) failure, or the dead-code `return []` after the
loop (kept for fidelity; it is unreachable, see `retry_never_empty`). -/
inductive RetryResult (α : Type) where
  | success (v : α)
  | failure (rateLimit : Bool)
  | emptyFallback
  deriving DecidableEq

/-- `self.rate_limit_delay` of `AsyncDDGS` (seconds). -/
def rate_limit_delay : ℚ := 3 / 2

/-- `self.backoff_factor` of `AsyncDDGS`. -/
def backoff_factor : ℚ := 2

/-- `self.max_retries` of `AsyncDDGS`. -/
def max_retries_ddgs : Nat := 3

/-- The loop body of `_retry` (ddgs_async.py lines 31-45), from attempt
index `attempt` with `fuel` loop iterations remaining (the loop runs over
`range(max_retries + 1)`, so `fuel = max_retries + 1 - attempt`).  The
oracle `f` gives the outcome of each attempt.  The second component
records, in order, the delays slept between attempts: on a rate-limit
failure `_handle_rate_limit(attempt)` sleeps
`rate_limit_delay * backoff_factor ** attempt`, on any other failure the
wrapper sleeps the fixed `rate_limit_delay`. -/
def retryGo (f : Nat → AttemptOutcome α) (maxRetries : Nat) :
    Nat → Nat → RetryResult α × List ℚ
  | _, 0 => (.emptyFallback, [])
  | attempt, fuel + 1 =>
    match f attempt with
    | .ok v => (.success v, [])
    | .rateLimited =>
      if attempt = maxRetries then (.failure true, [])
      else
        let rest := retryGo f maxRetries (attempt + 1) fuel
        (rest.1, rate_limit_delay * backoff_factor ^ attempt :: rest.2)
    | .otherError =>
      if attempt = maxRetries then (.failure false, [])
      else
        let rest := retryGo f maxRetries (attempt + 1) fuel
        (rest.1, rate_limit_delay :: rest.2)

/-- `AsyncDDGS._retry` with the instance configuration
(`max_retries = 3`, four attempts in total). -/
def retry (f : Nat → AttemptOutcome α) : RetryResult α × List ℚ :=
  retryGo f max_retries_ddgs 0 (max_retries_ddgs + 1)

/-! ### `expand_list` and nested per-query outputs -/

/-- A per-query output value as the aggregation step may see it: a result
or an arbitrarily nested list of results. -/
inductive RVal where
  | leaf (r : SearchResult)
  | lst (items : List RVal)

/-- Whether a value is a non-list leaf. -/
def RVal.isLeaf : RVal → Bool
  | .leaf _ => true
  | .lst _ => false

/-- `expand_list` (search_functions.py lines 367-386): a non-list value
becomes a one-element list; a list is walked left to right, extending with
the recursive expansion of list items and appending non-list items. -/
def expand_list : RVal → List RVal
  | .leaf r => [.leaf r]
  | .lst [] => []
  | .lst (item :: rest) =>
    (match item with
     | .lst xs => expand_list (.lst xs)
     | .leaf r => [.leaf r]) ++ expand_list (.lst rest)

/-! ### Result mappers (`searchthescience/result_mapper.py`)

Payload fields are modelled with the key-presence encoding
`Option (Option String)` (see the file header).  Payload shapes whose
mapping would raise in Python before the `SearchResult` construction is
even attempted (for example a `metadata` key holding `null`, on which
`.get` is then called) are outside the model domain: the caller catches
such exceptions per item and no Result is produced.  Raises at Result
construction time — pydantic rejecting `None` for the required
`href: str` or inside `authors: List[str]` — are modelled: those mappers
return `Option SearchResult`, with `none` for the raising path on which
the caller skips the item.  The `additional_fields` output map is not
modelled (see `SearchResult`). -/

/-- One entry of the `authorships` list of an OpenAlex work: either not a
dict with a dict under the `author` key (skipped by the isinstance
guards), or such a dict with its `display_name` field. -/
inductive OAAuthorship where
  | notDict
  | author (display_name : Option (Option String))

/-- The `primary_location` dict of an OpenAlex work, restricted to the
field the mapper reads into the modelled Result; the `source` sub-dict
feeds only the unmodelled `additional_fields` venue entry. -/
structure OALocation where
  pdf_url : Option (Option String)

/-- An OpenAlex work payload, restricted to the keys
`map_openalex_item` reads into the modelled Result fields (`concepts`,
`primary_topic`, `open_access`, `cited_by_count` and `publication_year`
feed only the unmodelled `additional_fields`). -/
structure OpenAlexRaw where
  title : Option (Option String)
  abstract_inverted_index : Option (Option (List (String × List Nat)))
  authorships : Option (Option (List OAAuthorship))
  primary_location : Option (Option OALocation)
  doi : Option (Option String)
  id : Option (Option String)
  publication_date : Option (Option String)

/-- The abstract reconstruction of `map_openalex_item` (result_mapper.py
lines 144-164): find the maximum position, build a word array of that
length filled with empty strings, place every word at each of its
positions (later dictionary entries overwrite earlier ones at the same
position), join with single spaces and strip.  Positions are modelled as
naturals, so the `0 <= pos` guard always holds. -/
def reconstructAbstract (idx : List (String × List Nat)) : String :=
  let maxPos := idx.foldl (fun m p => p.2.foldl max m) 0
  let arr := List.replicate (maxPos + 1) ""
  let placed := idx.foldl (fun a p =>
    p.2.foldl (fun a pos => if pos ≤ maxPos then a.set pos p.1 else a) a) arr
  (String.intercalate " " placed).trim

/-- The `abstract` local of `map_openalex_item` (result_mapper.py lines
141-167): reconstructed from a truthy (nonempty, non-null) inverted
index, `""` otherwise. -/
def oa_abstract (raw : OpenAlexRaw) : String :=
  match raw.abstract_inverted_index with
  | some (some idx) => if idx.isEmpty then "" else reconstructAbstract idx
  | _ => ""

/-- The `authors` local of `map_openalex_item` (lines 169-180): the
truthy display names of the first ten well-shaped authorships.  Only
nonempty strings are appended, so the value always validates against
`authors: List[str]`. -/
def oa_authors (raw : OpenAlexRaw) : List String :=
  match raw.authorships with
  | some (some l) =>
    (l.take 10).filterMap (fun a =>
      match a with
      | .author dn =>
        match dictGet dn (some "") with
        | some s => if s = "" then none else some s
        | none => none
      | .notDict => none)
  | _ => []

/-- The `href` local of `map_openalex_item` (lines 182-199): prefer a
truthy `pdf_url`, then a truthy doi, then the `id` field — the only
value of the three that can be Python `None` (an explicit null `id`). -/
def oa_href_value (raw : OpenAlexRaw) : Option String :=
  let loc :=
    match raw.primary_location with
    | some (some l) => l
    | _ => ({ pdf_url := none } : OALocation)
  let pdf_url := dictGet loc.pdf_url (some "")
  let doi := dictGet raw.doi (some "")
  if truthy pdf_url then pdf_url
  else if truthy doi then
    some ("https://doi.org/" ++
      (pyStrOf doi).replace "https://doi.org/" "")
  else dictGet raw.id (some "")

/-- `SearchResultMapper.map_openalex_item` (result_mapper.py lines
138-263).  `none` is the raising path: when the computed href is Python
`None` (explicit null `id`, no pdf/doi), the `SearchResult` constructor
raises a `ValidationError` (`href: str` rejects `None`); the outer
`except` then builds the fallback Result with `href=raw.get("id", "")` —
the same `None` — so the fallback raises identically, the exception
escapes `map_openalex_item`, and the caller (`search_openalex`,
search_functions.py lines 284-296) skips the item: no Result is
produced. -/
def map_openalex_item (raw : OpenAlexRaw) : Option SearchResult :=
  match oa_href_value raw with
  | none => none
  | some h =>
    some { result_type := .SCIENCE_GENERAL
           title := dictGet raw.title (some "Untitled Paper")
           href := h
           description := some (oa_abstract raw)
           published := dictGet raw.publication_date none
           authors := oa_authors raw
           source := "OpenAlex"
           doi := dictGet raw.doi (some "")
           extra := [] }

/-- One entry of the `creators` list of a Zenodo record: either not a
dict (skipped by the isinstance guard) or a dict with its `name` field. -/
inductive ZCreator where
  | notDict
  | dict (name : Option (Option String))

/-- The `metadata` dict of a Zenodo record (the keys `map_zenodo` reads
into the modelled Result; `keywords` feeds only `additional_fields`).
`creators` is `none` when the key is absent (`.get` default `[]`). -/
structure ZenodoMeta where
  title : Option (Option String)
  description : Option (Option String)
  publication_date : Option (Option String)
  creators : Option (List ZCreator)

/-- The `links` dict of a Zenodo record. -/
structure ZenodoLinks where
  doi : Option (Option String)
  html : Option (Option String)

/-- A Zenodo record payload (the keys `map_zenodo` reads into the
modelled Result fields; `files` feeds only `additional_fields`).
`metadata` and `links` are `none` when absent (`.get` default `{}`). -/
structure ZenodoRaw where
  metadata : Option ZenodoMeta
  links : Option ZenodoLinks
  id : Option (Option String)
  doi : Option (Option String)

/-- The `metadata` local of `map_zenodo`: `raw.get("metadata", {})`. -/
def zen_metadata (raw : ZenodoRaw) : ZenodoMeta :=
  raw.metadata.getD
    ({ title := none, description := none, publication_date := none,
       creators := none } : ZenodoMeta)

/-- The `href` local of `map_zenodo` (lines 95-99): doi link, else html
link, else the record URL — the last is a string literal, so the value is
never Python `None`. -/
def zen_href_value (raw : ZenodoRaw) : Option String :=
  let links := raw.links.getD ({ doi := none, html := none } : ZenodoLinks)
  let recordUrl := "https://zenodo.org/record/" ++ pyStrOf (dictGet raw.id (some ""))
  pyOr (pyOr (dictGet links.doi none) (dictGet links.html none)) (some recordUrl)

/-- The `authors` list comprehension of `map_zenodo` (lines 102-105): one
value per well-shaped creator dict; an explicit null `name` key puts a
Python `None` in the list. -/
def zen_author_values (raw : ZenodoRaw) : List (Option String) :=
  ((zen_metadata raw).creators.getD []).filterMap (fun c =>
    match c with
    | .dict n => some (dictGet n (some "Unknown Author"))
    | .notDict => none)

/-- `SearchResultMapper.map_zenodo` (result_mapper.py lines 90-125).
`none` is the raising path: a Python `None` among the author values fails
`authors: List[str]` validation, the `SearchResult` constructor raises,
and the caller (`search_zenodo`, search_functions.py lines 256-262)
catches the exception per item and skips it — no Result is produced.
(The href match arm for `none` is provably unreachable, see
`mapper_field_presence_c9`.) -/
def map_zenodo (raw : ZenodoRaw) : Option SearchResult :=
  match zen_href_value raw with
  | none => none
  | some h =>
    if (zen_author_values raw).all Option.isSome then
      some { result_type := .OPEN_SCIENCE
             title := dictGet (zen_metadata raw).title (some "Untitled Dataset")
             href := h
             description := dictGet (zen_metadata raw).description (some "")
             published := dictGet (zen_metadata raw).publication_date none
             authors := (zen_author_values raw).reduceOption
             source := "Zenodo"
             doi := dictGet raw.doi none
             extra := [] }
    else none

/-- The `entry_data` dict built by `search_arxiv` (search_functions.py
lines 352-360) and handed to `map_arxiv`: every key is present, `title`,
`id`, `summary` and `published` always hold strings (`findtext` with a
string default), `authors` holds a list of strings and `doi` holds
`None`.  `categories` feeds only `additional_fields`. -/
structure ArxivEntry where
  title : String
  id : String
  summary : String
  published : String
  authors : List String

/-- `SearchResultMapper.map_arxiv` (result_mapper.py lines 282-293) on the
payloads `search_arxiv` builds; since every key is present there, the
`.get` defaults (including the `"Untitled Preprint"` title placeholder)
never fire on this domain. -/
def map_arxiv (raw : ArxivEntry) : SearchResult :=
  { result_type := .SCIENCE_ARXIV
    title := some raw.title.trim
    href := raw.id
    description := some raw.summary.trim
    published := some raw.published
    authors := raw.authors
    source := "arXiv"
    doi := none
    extra := [] }

/-! ### Spec-side definition and concrete fixtures -/

/-- The truncation stage as the spec words it (spec section 4.5): walk the
sorted sequence keeping a running token count over the already accepted
results; accept a candidate while `runningCount + tokens(candidate)` stays
within `maxTokens`, and stop iterating entirely at the first candidate
that does not fit.  Stated separately from `limitTokens` (which is
translated from the code) so that the refinement between them can be
proved. -/
def greedy_prefix_spec (tokens : SearchResult → Nat) (maxTokens : Nat) :
    Nat → List SearchResult → List SearchResult
  | _, [] => []
  | runningCount, c :: later =>
    if runningCount + tokens c ≤ maxTokens then
      c :: greedy_prefix_spec tokens maxTokens (runningCount + tokens c) later
    else []

/-- A minimal concrete result used by witnesses and counterexamples. -/
def sampleRes (t : String) : SearchResult :=
  { result_type := .WEB, title := some t, href := "",
    description := none, published := none, authors := [], source := "",
    doi := none, extra := [] }

/-- The nested per-query output `[A, [B, [C, D]], E]` of the spec's
flatten example. -/
def nested_example : List RVal :=
  [RVal.leaf (sampleRes "A"),
   RVal.lst [RVal.leaf (sampleRes "B"),
             RVal.lst [RVal.leaf (sampleRes "C"), RVal.leaf (sampleRes "D")]],
   RVal.leaf (sampleRes "E")]

/-- The flat sequence `[A, B, C, D, E]` of the spec's flatten example. -/
def flat_example : List RVal :=
  [RVal.leaf (sampleRes "A"), RVal.leaf (sampleRes "B"),
   RVal.leaf (sampleRes "C"), RVal.leaf (sampleRes "D"),
   RVal.leaf (sampleRes "E")]

/-- A token oracle giving the ranking documents of the three sample
results 500, 400 and 50 tokens respectively. -/
def encTok : String → Nat :=
  fun s => if s = "A" then 500 else if s = "B" then 400 else
    if s = "C" then 50 else 0

/-- A score oracle returning the descending scores 0.9, 0.8, 0.5. -/
def bm25Desc : List (List String) → List String → List ℚ :=
  fun _ _ => [9/10, 4/5, 1/2]

/-- A backend behaviour that always succeeds with the three sample
results. -/
def bhvOk3 : BackendId → String → Nat → BackendResult :=
  fun _ _ _ => .ok [sampleRes "A", sampleRes "B", sampleRes "C"]

/-- A backend behaviour where the Zenodo backend raises and the others
succeed with one result. -/
def bhvZenodoFails : BackendId → String → Nat → BackendResult :=
  fun b _ _ =>
    match b with
    | .zenodoB => .exn "boom"
    | _ => .ok [sampleRes "A"]

/-- An attempt oracle that is rate-limited exactly twice, then succeeds. -/
def attemptsTwoRL : Nat → AttemptOutcome Nat :=
  fun i => if i < 2 then .rateLimited else .ok 42

/-- An attempt oracle that is rate-limited on every attempt. -/
def attemptsAllRL : Nat → AttemptOutcome Nat :=
  fun _ => .rateLimited

/-- An OpenAlex payload whose `title` key is present and holds an
explicit JSON null; every other key is absent. -/
def oaNullTitle : OpenAlexRaw :=
  { title := some none, abstract_inverted_index := none,
    authorships := none, primary_location := none, doi := none,
    id := none, publication_date := none }

/-- An OpenAlex payload with every key absent. -/
def oaSparse : OpenAlexRaw :=
  { title := none, abstract_inverted_index := none, authorships := none,
    primary_location := none, doi := none, id := none,
    publication_date := none }

/-- A Zenodo payload with every key absent. -/
def zenSparse : ZenodoRaw :=
  { metadata := none, links := none, id := none, doi := none }

/-- An arXiv entry as `search_arxiv` builds it for a sparse feed item. -/
def arxSparse : ArxivEntry :=
  { title := "", id := "", summary := "", published := "", authors := [] }

/-! ## Helper lemmas -/

/-- A truthy optional string is a nonempty string. -/
theorem truthy_iff {a : Option String} :
    truthy a = true ↔ ∃ s, a = some s ∧ s ≠ "" := by
  cases a with
  | none => simp [truthy]
  | some s => simp [truthy]

theorem insertDesc_perm (x : Nat × ℚ) (l : List (Nat × ℚ)) :
    List.Perm (insertDesc x l) (x :: l) := by
  induction l with
  | nil => simp [insertDesc]
  | cons y ys ih =>
    simp only [insertDesc]
    split
    · exact List.Perm.refl _
    · exact (ih.cons y).trans (List.Perm.swap x y ys)

theorem sortDesc_perm (l : List (Nat × ℚ)) : List.Perm (sortDesc l) l := by
  induction l with
  | nil => simp [sortDesc]
  | cons x xs ih =>
    exact (insertDesc_perm x (sortDesc xs)).trans (ih.cons x)

/-- Decidable descending sortedness of a score list. -/
def sortedDescBool : List ℚ → Bool
  | [] => true
  | [_] => true
  | a :: b :: rest => decide (b ≤ a) && sortedDescBool (b :: rest)

/-- A stable descending sort leaves an already descending enumeration
unchanged. -/
theorem sortDesc_enumFromQ_of_sorted :
    ∀ (l : List ℚ) (k : Nat), sortedDescBool l = true →
      sortDesc (enumFromQ k l) = enumFromQ k l := by
  intro l
  induction l with
  | nil => intro k _; simp [enumFromQ, sortDesc]
  | cons a tl ih =>
    intro k hs
    cases tl with
    | nil => simp [enumFromQ, sortDesc, insertDesc]
    | cons b rest =>
      have hba : b ≤ a := by
        have := hs
        simp [sortedDescBool] at this
        exact this.1
      have htl : sortedDescBool (b :: rest) = true := by
        simp [sortedDescBool] at hs ⊢
        exact hs.2
      have e1 : enumFromQ k (a :: b :: rest)
          = (k, a) :: enumFromQ (k + 1) (b :: rest) := rfl
      rw [e1]
      show insertDesc (k, a) (sortDesc (enumFromQ (k + 1) (b :: rest))) = _
      rw [ih (k + 1) htl]
      have e2 : enumFromQ (k + 1) (b :: rest)
          = (k + 1, b) :: enumFromQ (k + 2) rest := rfl
      rw [e2]
      simp [insertDesc, hba]

/-- The token-budget loop returns a sublist of its input. -/
theorem limitTokens_sublist (tok : SearchResult → Nat) (maxTokens : Nat) :
    ∀ (total : Nat) (l : List SearchResult),
      List.Sublist (limitTokens tok maxTokens total l) l := by
  intro total l
  induction l generalizing total with
  | nil => simp [limitTokens]
  | cons r rest ih =>
    simp only [limitTokens]
    split
    · exact (ih _).cons₂ r
    · exact List.nil_sublist _

/-- The token-budget loop returns an initial segment of its input. -/
theorem limitTokens_append (tok : SearchResult → Nat) (maxTokens : Nat) :
    ∀ (total : Nat) (l : List SearchResult),
      ∃ t, l = limitTokens tok maxTokens total l ++ t := by
  intro total l
  induction l generalizing total with
  | nil => exact ⟨[], rfl⟩
  | cons r rest ih =>
    simp only [limitTokens]
    split
    · obtain ⟨t, ht⟩ := ih (total + tok r)
      exact ⟨t, by simpa using ht⟩
    · exact ⟨r :: rest, rfl⟩

/-- Looking every enumerated index back up in the original list recovers
the list. -/
theorem enumFromQ_filterMap_get :
    ∀ (s : List β) (k : Nat) (l : List α), l.length = k + s.length →
      (enumFromQ k s).filterMap (fun p => l.get? p.1) = l.drop k := by
  intro s
  induction s with
  | nil =>
    intro k l hl
    simp only [List.length_nil] at hl
    simp only [enumFromQ, List.filterMap_nil]
    exact (List.drop_eq_nil_of_le (by omega)).symm
  | cons b s ih =>
    intro k l hl
    have hk : k < l.length := by simp at hl; omega
    simp only [enumFromQ, List.filterMap_cons]
    rw [List.get?_eq_getElem? l k, List.getElem?_eq_getElem hk]
    simp only
    rw [ih (k + 1) l (by simp at hl ⊢; omega)]
    exact (List.drop_eq_getElem_cons hk).symm

theorem enumerate_filterMap_get (s : List β) (l : List α)
    (h : l.length = s.length) :
    (enumerate s).filterMap (fun p => l.get? p.1) = l := by
  have := enumFromQ_filterMap_get s 0 l (by simpa using h)
  simpa [enumerate] using this

/-- The ranked list inside `rerank_results` is a permutation of the input
when the score oracle returns one score per document. -/
theorem ranked_perm (scores : List ℚ) (results : List SearchResult)
    (h : scores.length = results.length) :
    List.Perm
      ((sortDesc (enumerate scores)).filterMap (fun p => results.get? p.1))
      results := by
  have hperm := (sortDesc_perm (enumerate scores)).filterMap
    (fun p => results.get? p.1)
  rw [enumerate_filterMap_get scores results h.symm] at hperm
  exact hperm

/-- Every event a per-query task emits carries one of the four non-timeout
kinds. -/
theorem execute_search_kinds (behavior : BackendId → String → Nat → BackendResult)
    (max_results : Nat) (q : MSQuery) :
    ∀ e, e ∈ (execute_search behavior max_results q).2 →
      e.1 = "invalid_search" ∨ e.1 = "no_results" ∨
      e.1 = "results_found" ∨ e.1 = "search_error" := by
  intro e he
  rcases h : q.lookupBackend with _ | b
  · simp [execute_search, h] at he
    simp [he]
  · rcases hb : behavior b q.queryText max_results with rs | m
    · by_cases hrs : rs.isEmpty
      · simp [execute_search, h, hb, hrs] at he
        simp [he]
      · simp [execute_search, h, hb, hrs] at he
        simp [he]
    · simp [execute_search, h, hb] at he
      simp [he]

/-- No per-query task ever emits a `timeout` event. -/
theorem execute_search_no_timeout
    (behavior : BackendId → String → Nat → BackendResult)
    (max_results : Nat) (q : MSQuery) :
    (execute_search behavior max_results q).2.countP
      (fun e => e.1 == "timeout") = 0 := by
  rw [List.countP_eq_zero]
  intro e he
  rcases execute_search_kinds behavior max_results q e he with h | h | h | h <;>
    simp [h]

/-- `countP` of a flattened list of lists that each count zero. -/
theorem countP_flatten_zero (p : α → Bool) :
    ∀ (L : List (List α)), (∀ l ∈ L, l.countP p = 0) → L.flatten.countP p = 0 := by
  intro L
  induction L with
  | nil => intro _; simp
  | cons l ls ih =>
    intro h
    simp only [List.flatten_cons, List.countP_append]
    rw [h l (by simp), ih (fun x hx => h x (by simp [hx]))]

/-- `expand_list` on a list value is the concatenation of the recursive
expansions of its items, left to right. -/
theorem expand_list_lst (l : List RVal) :
    expand_list (.lst l) = (l.map expand_list).flatten := by
  induction l with
  | nil => simp [expand_list]
  | cons item rest ih =>
    cases item with
    | leaf r => simp [expand_list, ih]
    | lst xs => simp [expand_list, ih]

/-- Every element `expand_list` produces is a non-list leaf. -/
theorem expand_list_all_leaf : ∀ (v : RVal),
    (expand_list v).all RVal.isLeaf = true := by
  have key : ∀ (n : Nat) (v : RVal), sizeOf v ≤ n →
      (expand_list v).all RVal.isLeaf = true := by
    intro n
    induction n with
    | zero =>
      intro v h
      exfalso
      cases v <;> simp at h
    | succ n ih =>
      intro v h
      match v with
      | .leaf r => simp [expand_list, RVal.isLeaf]
      | .lst [] => simp [expand_list]
      | .lst (item :: rest) =>
        simp only [RVal.lst.sizeOf_spec, List.cons.sizeOf_spec] at h
        have hitem : sizeOf item ≤ n := by omega
        have hrest : sizeOf (RVal.lst rest) ≤ n := by
          simp only [RVal.lst.sizeOf_spec]
          omega
        rw [expand_list_lst, List.map_cons, List.flatten_cons,
          List.all_append, ← expand_list_lst rest]
        apply Bool.and_eq_true_iff.mpr
        exact ⟨ih item hitem, ih (.lst rest) hrest⟩
  intro v
  exact key (sizeOf v) v (le_refl _)

/-! ### Retry-wrapper lemmas -/

/-- If the first `k` attempts are rate-limited and attempt `k` (0-based)
succeeds, the loop reaches attempt `k` and returns the success value. -/
theorem retryGo_success (f : Nat → AttemptOutcome α) (m k : Nat) (v : α)
    (hfk : f k = .ok v) (hpre : ∀ i, i < k → f i = .rateLimited) :
    ∀ (fuel attempt : Nat), attempt + fuel = m + 1 → attempt ≤ k → k ≤ m →
      (retryGo f m attempt fuel).1 = .success v := by
  intro fuel
  induction fuel with
  | zero =>
    intro attempt hfuel hak hkm
    omega
  | succ fuel ih =>
    intro attempt hfuel hak hkm
    by_cases hk : attempt = k
    · subst hk
      simp [retryGo, hfk]
    · have hlt : attempt < k := by omega
      have hrl : f attempt = .rateLimited := hpre attempt hlt
      have hnm : ¬(attempt = m) := by omega
      simp only [retryGo, hrl, hnm, if_false]
      exact ih (attempt + 1) (by omega) (by omega) hkm

/-- If every attempt is rate-limited, the loop re-raises at the last
attempt. -/
theorem retryGo_exhaust (f : Nat → AttemptOutcome α) (m : Nat)
    (hall : ∀ i, f i = .rateLimited) :
    ∀ (fuel attempt : Nat), attempt + fuel = m + 1 → 0 < fuel →
      (retryGo f m attempt fuel).1 = .failure true := by
  intro fuel
  induction fuel with
  | zero =>
    intro attempt _ h
    omega
  | succ fuel ih =>
    intro attempt hfuel _
    by_cases hm : attempt = m
    · subst hm
      simp [retryGo, hall]
    · simp only [retryGo, hall attempt, hm, if_false]
      exact ih (attempt + 1) (by omega) (by omega)

/-- The delay recorded at position `i` of the sleep list belongs to
attempt `attempt + i`: exponential backoff on a rate-limit failure, the
fixed base delay otherwise. -/
theorem retryGo_delays (f : Nat → AttemptOutcome α) (m : Nat) :
    ∀ (fuel attempt i : Nat) (d : ℚ),
      (retryGo f m attempt fuel).2.get? i = some d →
      d = (match f (attempt + i) with
           | .rateLimited => rate_limit_delay * backoff_factor ^ (attempt + i)
           | _ => rate_limit_delay) := by
  intro fuel
  induction fuel with
  | zero =>
    intro attempt i d hd
    simp [retryGo] at hd
  | succ fuel ih =>
    intro attempt i d hd
    rcases hf : f attempt with v | _ | _
    · simp [retryGo, hf] at hd
    · by_cases hm : attempt = m
      · subst hm
        simp [retryGo, hf] at hd
      · simp only [retryGo, hf, hm, if_false] at hd
        cases i with
        | zero =>
          simp at hd
          simp [← hd, hf]
        | succ i =>
          simp only [List.get?_cons_succ] at hd
          have heq := ih (attempt + 1) i d hd
          rw [heq]
          have harith : attempt + 1 + i = attempt + (i + 1) := by omega
          rw [harith]
    · by_cases hm : attempt = m
      · subst hm
        simp [retryGo, hf] at hd
      · simp only [retryGo, hf, hm, if_false] at hd
        cases i with
        | zero =>
          simp at hd
          simp [← hd, hf]
        | succ i =>
          simp only [List.get?_cons_succ] at hd
          have heq := ih (attempt + 1) i d hd
          rw [heq]
          have harith : attempt + 1 + i = attempt + (i + 1) := by omega
          rw [harith]

theorem flat_results_comp_append (A B : List (List α)) :
    flat_results_comp (A ++ B) = flat_results_comp A ++ flat_results_comp B := by
  simp [flat_results_comp, List.filter_append]

theorem flat_results_comp_nil_cons (B : List (List α)) :
    flat_results_comp ([] :: B) = flat_results_comp B := by
  simp [flat_results_comp]

/-- Skipping falsy sub-lists does not change a one-level flatten. -/
theorem flat_results_comp_eq_flatten :
    ∀ (rss : List (List α)), flat_results_comp rss = rss.flatten := by
  intro rss
  induction rss with
  | nil => simp [flat_results_comp]
  | cons l ls ih =>
    by_cases hl : l.isEmpty
    · have h0 : l = [] := List.isEmpty_iff.mp hl
      subst h0
      rw [flat_results_comp_nil_cons, ih]
      simp
    · have hstep : flat_results_comp (l :: ls) = l ++ flat_results_comp ls := by
        simp [flat_results_comp, List.filter_cons, hl]
      rw [hstep, ih, List.flatten_cons]

/-- The code's token-budget loop computes the spec's greedy prefix walk. -/
theorem limitTokens_eq_greedy (tok : SearchResult → Nat) (maxTokens : Nat) :
    ∀ (total : Nat) (l : List SearchResult),
      limitTokens tok maxTokens total l = greedy_prefix_spec tok maxTokens total l := by
  intro total l
  induction l generalizing total with
  | nil => simp [limitTokens, greedy_prefix_spec]
  | cons r rest ih =>
    simp only [limitTokens, greedy_prefix_spec]
    split
    · rw [ih]
    · rfl

/-- Unfolding `rerank_results` on a nonempty input. -/
theorem rerank_results_eq (bm25 : List (List String) → List String → List ℚ)
    (enc : String → Nat) (query : String) (results : List SearchResult)
    (fields : List String) (max_tokens : Nat) (h : results.isEmpty = false) :
    rerank_results bm25 enc query results fields max_tokens
      = limitTokens (fun r => enc (get_text fields r)) max_tokens 0
          ((sortDesc (enumerate
              (bm25 (results.map (fun r => splitWs (get_text fields r).toLower))
                (splitWs query.toLower)))).filterMap
            (fun p => results.get? p.1)) := by
  unfold rerank_results
  rw [if_neg (by simp [h])]

/-- The final sequence of a non-timed-out, non-reranking call is the
one-level flatten of the per-query sub-results. -/
theorem multi_norerank_fst (behavior : BackendId → String → Nat → BackendResult)
    (bm25 : List (List String) → List String → List ℚ) (enc : String → Nat)
    (qs : List MSQuery) (mr : Nat) (tv : ℚ) (mask : List Bool) :
    (multi_search_interface behavior bm25 enc qs mr tv false mask false).1
      = flat_results_comp (qs.map (fun q => (execute_search behavior mr q).1)) := by
  simp only [multi_search_interface, Bool.false_and, Bool.false_eq_true,
    if_false, List.map_map]
  rfl

/-- Any event emitted by some per-query task of a non-timed-out call is
in the event stream of the call. -/
theorem multi_events_mem (behavior : BackendId → String → Nat → BackendResult)
    (bm25 : List (List String) → List String → List ℚ) (enc : String → Nat)
    (qs : List MSQuery) (mr : Nat) (tv : ℚ) (mask : List Bool) (rr : Bool)
    (e : Event)
    (he : e ∈ (qs.map (fun q => (execute_search behavior mr q).2)).flatten) :
    e ∈ (multi_search_interface behavior bm25 enc qs mr tv false mask rr).2 := by
  exact List.mem_append_left _ (by simpa [Function.comp] using he)

/-! ## Claim theorems -/

/-- C6: with `maxRetries = 3`, a call whose function is rate-limited on
its first `k ≤ 3` attempts and succeeds on the next attempt returns the
success value, and a call rate-limited on all `maxRetries + 1 = 4`
attempts propagates the failure to the caller instead of returning the
loop's dead-code empty result. -/
theorem retry_success_exhaustion_c6 {α : Type}
    (f g : Nat → AttemptOutcome α) (k : Nat) (v : α)
    (hk : k ≤ max_retries_ddgs)
    (hpre : ∀ i, i < k → f i = .rateLimited)
    (hfk : f k = .ok v)
    (hg : ∀ i, g i = .rateLimited) :
    (retry f).1 = .success v ∧
    (retry g).1 = .failure true ∧
    (retry g).1 ≠ .emptyFallback := by
  have hE : (retry g).1 = RetryResult.failure true :=
    retryGo_exhaust g max_retries_ddgs hg
      (max_retries_ddgs + 1) 0 (by omega) (by omega)
  refine ⟨?_, hE, ?_⟩
  · exact retryGo_success f max_retries_ddgs k v hfk hpre
      (max_retries_ddgs + 1) 0 (by omega) (by omega) hk
  · rw [hE]
    simp

/-- Witness for C6 at the concrete oracles: rate-limited exactly twice
then succeeding yields the success value; always rate-limited fails. -/
theorem retry_success_exhaustion_c6_witness :
    (retry attemptsTwoRL).1 = .success 42 ∧
    (retry attemptsAllRL).1 = .failure true ∧
    (retry attemptsAllRL).1 ≠ .emptyFallback := by
  have h := retry_success_exhaustion_c6 attemptsTwoRL attemptsAllRL 2 42
    (by decide)
    (by intro i hi; simp [attemptsTwoRL, hi])
    rfl
    (fun _ => rfl)
  exact h

/-- C7: the delay slept before retrying attempt `n` is
`rate_limit_delay * backoff_factor ^ n` (base 1.5 s, factor 2) exactly
when attempt `n` failed with the rate-limit signal, so an all-rate-limited
run waits 1.5 s, 3 s, 6 s; after any other failure the wrapper waits the
fixed 1.5 s base delay. -/
theorem retry_backoff_schedule_c7 {α : Type}
    (f g : Nat → AttemptOutcome α) (hg : ∀ i, g i = .rateLimited) :
    rate_limit_delay = 3 / 2 ∧ backoff_factor = 2 ∧
    (∀ i d, (retry f).2.get? i = some d →
      d = (match f i with
           | .rateLimited => rate_limit_delay * backoff_factor ^ i
           | _ => rate_limit_delay)) ∧
    (retry g).2 = [3 / 2, 3, 6] := by
  refine ⟨rfl, rfl, ?_, ?_⟩
  · intro i d hd
    have := retryGo_delays f max_retries_ddgs (max_retries_ddgs + 1) 0 i d hd
    simpa using this
  · simp only [retry, max_retries_ddgs, retryGo, hg]
    norm_num [rate_limit_delay, backoff_factor]

/-- Witness for C7: the all-rate-limited run sleeps exactly
1.5 s, 3 s, 6 s, and its second delay matches the exponential formula. -/
theorem retry_backoff_schedule_c7_witness :
    (retry attemptsAllRL).2 = [3 / 2, 3, 6] ∧
    (3 : ℚ) = rate_limit_delay * backoff_factor ^ 1 := by
  have h := retry_backoff_schedule_c7 attemptsAllRL attemptsAllRL
    (fun _ => rfl)
  refine ⟨h.2.2.2, ?_⟩
  have h1 := h.2.2.1 1 3 (by rw [h.2.2.2]; rfl)
  simpa [attemptsAllRL] using h1

/-- C5: a query whose tag is absent from the search map of its tier
yields the empty sub-result together with a single `invalid_search`
event, and the orchestrator returns the empty sequence for a batch of
that query alone; `execute_search` is total, so nothing is raised. -/
theorem invalid_search_c5 (behavior : BackendId → String → Nat → BackendResult)
    (bm25 : List (List String) → List String → List ℚ) (enc : String → Nat)
    (mr : Nat) (tv : ℚ) (mask : List Bool) (rr : Bool) (q : MSQuery)
    (hq : q.lookupBackend = none) :
    (execute_search behavior mr q
      = ([], [("invalid_search", s!"❌ Invalid search type: {q.typeName}")])) ∧
    (multi_search_interface behavior bm25 enc [q] mr tv false mask rr).1 = [] := by
  constructor
  · simp [execute_search, hq]
  · simp [multi_search_interface, execute_search, hq, flat_results_comp]

/-- Witness for C5: the alpha tier has no `WEB` entry (the DDG-backed
rows are commented out), so a `WEB` query returns nothing. -/
theorem invalid_search_c5_witness :
    ((MSQuery.alpha .WEB "x").lookupBackend = none) ∧
    (multi_search_interface bhvOk3 bm25Desc encTok [MSQuery.alpha .WEB "x"]
      5 15 false [] true).1 = [] :=
  ⟨rfl, (invalid_search_c5 bhvOk3 bm25Desc encTok 5 15 [] true
    (MSQuery.alpha .WEB "x") rfl).2⟩

/-- C8: with reranking disabled and a single query whose backend call
returns `rs`, the orchestrator output is `rs` verbatim. -/
theorem pass_through_c8 (behavior : BackendId → String → Nat → BackendResult)
    (bm25 : List (List String) → List String → List ℚ) (enc : String → Nat)
    (q : MSQuery) (b : BackendId) (rs : List SearchResult)
    (mr : Nat) (tv : ℚ) (mask : List Bool)
    (hb : q.lookupBackend = some b)
    (hok : behavior b q.queryText mr = .ok rs) :
    (multi_search_interface behavior bm25 enc [q] mr tv false mask false).1 = rs := by
  rw [multi_norerank_fst]
  by_cases hrs : rs.isEmpty
  · have h0 : rs = [] := List.isEmpty_iff.mp hrs
    subst h0
    simp [execute_search, hb, hok, flat_results_comp]
  · have hne : rs ≠ [] := by simpa using hrs
    simp [execute_search, hb, hok, hne, flat_results_comp]

/-- Witness for C8 on a concrete single-query batch: the backend's three
sample results come back unchanged and in order. -/
theorem pass_through_c8_witness :
    (multi_search_interface bhvOk3 bm25Desc encTok
      [MSQuery.stable .ZENODO "q"] 5 15 false [] false).1
      = [sampleRes "A", sampleRes "B", sampleRes "C"] :=
  pass_through_c8 bhvOk3 bm25Desc encTok (MSQuery.stable .ZENODO "q")
    .zenodoB [sampleRes "A", sampleRes "B", sampleRes "C"] 5 15 [] rfl rfl

/-- C4: a raised backend exception is caught inside the per-query failure
boundary: the failing query contributes an empty sub-result plus one
`search_error` event naming the search type and the query text; a sibling
query whose backend call succeeds with a nonempty list keeps exactly
those results as its sub-result; removing the failing query from the
batch leaves the output sequence unchanged (reranking disabled); and the
`search_error` event appears in the event stream of the call.
`execute_search` is total, so the exception never reaches the caller and
never aborts sibling tasks. -/
theorem failure_isolation_c4 (behavior : BackendId → String → Nat → BackendResult)
    (bm25 : List (List String) → List String → List ℚ) (enc : String → Nat)
    (qs1 qs2 : List MSQuery) (qf : MSQuery) (b : BackendId) (m : String)
    (mr : Nat) (tv : ℚ) (mask : List Bool)
    (hb : qf.lookupBackend = some b)
    (hexn : behavior b qf.queryText mr = .exn m) :
    (execute_search behavior mr qf
      = ([], [("search_error",
          s!"❌ Error in {qf.typeName} search for \x27{qf.queryText}\x27: {m}")])) ∧
    (∀ q2 b2 rs2, q2.lookupBackend = some b2 →
      behavior b2 q2.queryText mr = .ok rs2 → rs2 ≠ [] →
      (execute_search behavior mr q2).1 = rs2) ∧
    ((multi_search_interface behavior bm25 enc (qs1 ++ qf :: qs2)
        mr tv false mask false).1
      = (multi_search_interface behavior bm25 enc (qs1 ++ qs2)
        mr tv false mask false).1) ∧
    (("search_error", s!"❌ Error in {qf.typeName} search for \x27{qf.queryText}\x27: {m}")
      ∈ (multi_search_interface behavior bm25 enc (qs1 ++ qf :: qs2)
        mr tv false mask false).2) := by
  have hf : execute_search behavior mr qf
      = ([], [("search_error",
          s!"❌ Error in {qf.typeName} search for \x27{qf.queryText}\x27: {m}")]) := by
    simp [execute_search, hb, hexn]
  refine ⟨hf, ?_, ?_, ?_⟩
  · intro q2 b2 rs2 h2 hok2 hne
    simp [execute_search, h2, hok2, hne]
  · rw [multi_norerank_fst, multi_norerank_fst, List.map_append,
      List.map_cons, List.map_append]
    simp only [hf, flat_results_comp_append, flat_results_comp_nil_cons]
  · apply multi_events_mem
    rw [List.mem_flatten]
    refine ⟨(execute_search behavior mr qf).2, ?_, ?_⟩
    · exact List.mem_map_of_mem _ (by simp)
    · rw [hf]
      simp

/-- Witness for C4: in a two-query batch where the Zenodo backend raises
and the arXiv backend succeeds, the arXiv results survive untouched and
dropping the failing query does not change the output. -/
theorem failure_isolation_c4_witness :
    ((execute_search bhvZenodoFails 5 (MSQuery.stable .SCIENCE_ARXIV "q2")).1
      = [sampleRes "A"]) ∧
    ((multi_search_interface bhvZenodoFails bm25Desc encTok
        [MSQuery.alpha .ZENODO "q1", MSQuery.stable .SCIENCE_ARXIV "q2"]
        5 15 false [] false).1
      = (multi_search_interface bhvZenodoFails bm25Desc encTok
        [MSQuery.stable .SCIENCE_ARXIV "q2"] 5 15 false [] false).1) := by
  have h := failure_isolation_c4 bhvZenodoFails bm25Desc encTok
    [] [MSQuery.stable .SCIENCE_ARXIV "q2"] (MSQuery.alpha .ZENODO "q1")
    .zenodoB "boom" 5 15 [] rfl rfl
  exact ⟨h.2.1 (MSQuery.stable .SCIENCE_ARXIV "q2") .arxivB [sampleRes "A"]
    rfl rfl (by simp), h.2.2.1⟩

/-- C1: when the shared deadline elapses before all per-query tasks
complete, `multi_search_interface` returns the empty sequence, its event
stream carries exactly one event of kind `timeout`, and no sub-result
computed by a completed task appears in the returned sequence (every
partial sub-result is discarded).  Default deadline: `default_timeout`. -/
theorem timeout_discards_c1 (behavior : BackendId → String → Nat → BackendResult)
    (bm25 : List (List String) → List String → List ℚ) (enc : String → Nat)
    (qs : List MSQuery) (mr : Nat) (tv : ℚ) (mask : List Bool) (rr : Bool) :
    ((multi_search_interface behavior bm25 enc qs mr tv true mask rr).1 = []) ∧
    ((multi_search_interface behavior bm25 enc qs mr tv true mask rr).2.countP
      (fun e => e.1 == "timeout") = 1) ∧
    (∀ q r, r ∈ (execute_search behavior mr q).1 →
      r ∉ (multi_search_interface behavior bm25 enc qs mr tv true mask rr).1) := by
  have h1 : (multi_search_interface behavior bm25 enc qs mr tv true mask rr).1
      = [] := by
    simp [multi_search_interface]
  refine ⟨h1, ?_, ?_⟩
  · have h2 : (multi_search_interface behavior bm25 enc qs mr tv true mask rr).2
        = ((qs.zip mask).filterMap (fun p =>
            if p.2 then some (execute_search behavior mr p.1).2 else none)).flatten
          ++ [("timeout",
              s!"❌ Search operations timed out after {tv} seconds")] := by
      simp [multi_search_interface]
    rw [h2, List.countP_append]
    have hz : ((qs.zip mask).filterMap (fun p =>
        if p.2 then some (execute_search behavior mr p.1).2 else none)).flatten.countP
          (fun e => e.1 == "timeout") = 0 := by
      apply countP_flatten_zero
      intro l hl
      rw [List.mem_filterMap] at hl
      obtain ⟨a, _, hga⟩ := hl
      rcases ha2 : a.2 with _ | _
      · rw [ha2] at hga
        simp at hga
      · rw [ha2] at hga
        simp at hga
        rw [← hga]
        exact execute_search_no_timeout behavior mr a.1
    rw [hz]
    simp
  · intro q r _
    rw [h1]
    simp

/-- Witness for C1: a backend that already computed three results before
the deadline fired contributes nothing to the (empty) returned sequence. -/
theorem timeout_discards_c1_witness :
    (sampleRes "A" ∈ (execute_search bhvOk3 5 (MSQuery.stable .ZENODO "q")).1) ∧
    (sampleRes "A" ∉ (multi_search_interface bhvOk3 bm25Desc encTok
      [MSQuery.stable .ZENODO "q"] 5 1 true [true] true).1) := by
  have h := timeout_discards_c1 bhvOk3 bm25Desc encTok
    [MSQuery.stable .ZENODO "q"] 5 1 [true] true
  have hmem : sampleRes "A" ∈ (execute_search bhvOk3 5
      (MSQuery.stable .ZENODO "q")).1 := by
    simp [execute_search, bhvOk3, MSQuery.lookupBackend, stable_search_map]
  exact ⟨hmem, h.2.2 (MSQuery.stable .ZENODO "q") (sampleRes "A") hmem⟩

/-- C2: when the score oracle returns one score per result and those
scores are already descending (so the input order is the score order),
`rerank_results` computes exactly the greedy prefix walk of the spec:
running token count over accepted results, accept while
`runningCount + tokens(candidate) ≤ maxTokens`, stop entirely at the
first candidate that does not fit; in particular the output is an initial
segment of the score-ordered sequence, so no later candidate is ever
reconsidered. -/
theorem rerank_truncation_c2 (bm25 : List (List String) → List String → List ℚ)
    (enc : String → Nat) (query : String) (results : List SearchResult)
    (fields : List String) (max_tokens : Nat)
    (hlen : (bm25 (results.map (fun r => splitWs (get_text fields r).toLower))
      (splitWs query.toLower)).length = results.length)
    (hsorted : sortedDescBool
      (bm25 (results.map (fun r => splitWs (get_text fields r).toLower))
        (splitWs query.toLower)) = true) :
    (rerank_results bm25 enc query results fields max_tokens
      = greedy_prefix_spec (fun r => enc (get_text fields r)) max_tokens 0 results) ∧
    (∃ t, results = rerank_results bm25 enc query results fields max_tokens ++ t) := by
  by_cases hr : results.isEmpty
  · have h0 : results = [] := List.isEmpty_iff.mp hr
    subst h0
    exact ⟨by simp [rerank_results, greedy_prefix_spec],
      ⟨[], by simp [rerank_results]⟩⟩
  · have hr2 : results.isEmpty = false := by simpa using hr
    have key := rerank_results_eq bm25 enc query results fields max_tokens hr2
    have hsort : sortDesc (enumerate
        (bm25 (results.map (fun r => splitWs (get_text fields r).toLower))
          (splitWs query.toLower)))
        = enumerate (bm25 (results.map (fun r => splitWs (get_text fields r).toLower))
          (splitWs query.toLower)) := by
      have := sortDesc_enumFromQ_of_sorted
        (bm25 (results.map (fun r => splitWs (get_text fields r).toLower))
          (splitWs query.toLower)) 0 hsorted
      simpa [enumerate] using this
    rw [hsort, enumerate_filterMap_get _ _ hlen.symm] at key
    exact ⟨key.trans (limitTokens_eq_greedy _ _ 0 results),
      key ▸ limitTokens_append _ _ 0 results⟩

/-- Witness for C2, the spec's concrete instance: three results whose
ranking documents cost 500, 400 and 50 tokens, scores already descending
(0.9, 0.8, 0.5), budget 700: the output is exactly the first result — the
third is never considered although it alone would fit. -/
theorem rerank_truncation_c2_witness :
    (sortedDescBool (bm25Desc
      ([sampleRes "A", sampleRes "B", sampleRes "C"].map
        (fun r => splitWs (get_text default_fields r).toLower))
      (splitWs "q".toLower)) = true) ∧
    (rerank_results bm25Desc encTok "q"
      [sampleRes "A", sampleRes "B", sampleRes "C"] default_fields 700
      = [sampleRes "A"]) ∧
    (encTok (get_text default_fields (sampleRes "C")) ≤ 700) := by
  have hs : sortedDescBool (bm25Desc
      ([sampleRes "A", sampleRes "B", sampleRes "C"].map
        (fun r => splitWs (get_text default_fields r).toLower))
      (splitWs "q".toLower)) = true := by
    norm_num [bm25Desc, sortedDescBool]
  have h := rerank_truncation_c2 bm25Desc encTok "q"
    [sampleRes "A", sampleRes "B", sampleRes "C"] default_fields 700
    rfl hs
  refine ⟨hs, ?_, by decide⟩
  rw [h.1]
  decide

/-- C10: the output of `rerank_results` is a sub-multiset of its input —
no element is introduced, none is duplicated beyond its input
multiplicity, the length never grows, and the empty input comes back
unchanged. -/
theorem rerank_submultiset_c10 (bm25 : List (List String) → List String → List ℚ)
    (enc : String → Nat) (query : String) (results : List SearchResult)
    (fields : List String) (max_tokens : Nat)
    (hlen : (bm25 (results.map (fun r => splitWs (get_text fields r).toLower))
      (splitWs query.toLower)).length = results.length) :
    (∀ x, (rerank_results bm25 enc query results fields max_tokens).count x
      ≤ results.count x) ∧
    (∀ x, x ∈ rerank_results bm25 enc query results fields max_tokens →
      x ∈ results) ∧
    ((rerank_results bm25 enc query results fields max_tokens).length
      ≤ results.length) ∧
    (results = [] → rerank_results bm25 enc query results fields max_tokens
      = results) := by
  by_cases hr : results.isEmpty
  · have h0 : results = [] := List.isEmpty_iff.mp hr
    subst h0
    refine ⟨?_, ?_, ?_, ?_⟩ <;> simp [rerank_results]
  · have hr2 : results.isEmpty = false := by simpa using hr
    have key := rerank_results_eq bm25 enc query results fields max_tokens hr2
    have hperm := ranked_perm
      (bm25 (results.map (fun r => splitWs (get_text fields r).toLower))
        (splitWs query.toLower)) results hlen
    have hsub := limitTokens_sublist (fun r => enc (get_text fields r))
      max_tokens 0
      ((sortDesc (enumerate
          (bm25 (results.map (fun r => splitWs (get_text fields r).toLower))
            (splitWs query.toLower)))).filterMap
        (fun p => results.get? p.1))
    refine ⟨?_, ?_, ?_, ?_⟩
    · intro x
      rw [key]
      exact (hsub.count_le x).trans (le_of_eq (hperm.count_eq x))
    · intro x hx
      rw [key] at hx
      exact hperm.mem_iff.mp (hsub.subset hx)
    · rw [key]
      exact hsub.length_le.trans (le_of_eq hperm.length_eq)
    · intro h0
      rw [h0] at hr
      simp at hr

/-- Witness for C10 at a concrete three-result input: the output has at
most the input length and each sample result keeps multiplicity at most
one. -/
theorem rerank_submultiset_c10_witness :
    ((rerank_results bm25Desc encTok "q"
      [sampleRes "A", sampleRes "B", sampleRes "C"] default_fields 700).length
        ≤ [sampleRes "A", sampleRes "B", sampleRes "C"].length) ∧
    ((rerank_results bm25Desc encTok "q"
      [sampleRes "A", sampleRes "B", sampleRes "C"] default_fields 700).count
        (sampleRes "A")
      ≤ [sampleRes "A", sampleRes "B", sampleRes "C"].count (sampleRes "A")) := by
  have h := rerank_submultiset_c10 bm25Desc encTok "q"
    [sampleRes "A", sampleRes "B", sampleRes "C"] default_fields 700 rfl
  exact ⟨h.2.2.1, h.1 (sampleRes "A")⟩

/-- C3, counterexample: for the spec's own nested per-query output
`[A, [B, [C, D]], E]`, the aggregation step of `multi_search_interface`
(one-level flatten) does not produce the flat sequence
`[A, B, C, D, E]` — the inner nesting survives. -/
theorem aggregation_one_level_c3_cex :
    flat_results_comp [nested_example] ≠ flat_example := by
  intro h
  have hlen := congrArg List.length h
  simp [flat_results_comp, nested_example, flat_example] at hlen

/-- C3, amended: `expand_list` does flatten a per-query value of
arbitrary depth into one flat ordered sequence — a non-list value is a
one-element leaf, a list expands to the left-to-right concatenation of
its items' expansions, every produced element is a leaf, and the spec's
example expands to `[A, B, C, D, E]` — but the aggregation step inside
`multi_search_interface` never calls it: that step flattens exactly one
level (skipping falsy sub-lists, which changes nothing). -/
theorem expand_list_flatten_c3 :
    (∀ r, expand_list (.leaf r) = [.leaf r]) ∧
    (∀ l, expand_list (.lst l) = (l.map expand_list).flatten) ∧
    (∀ v, (expand_list v).all RVal.isLeaf = true) ∧
    (∀ (α : Type) (rss : List (List α)), flat_results_comp rss = rss.flatten) ∧
    (expand_list (.lst nested_example) = flat_example) := by
  refine ⟨fun r => by simp [expand_list], expand_list_lst, expand_list_all_leaf,
    fun α rss => flat_results_comp_eq_flatten rss, ?_⟩
  simp [nested_example, flat_example, expand_list]

/-- A present key whose value is not JSON null never yields a null field
when the `.get` default is a string. -/
theorem dictGet_ne_none (f : Option (Option String)) (s : String)
    (hf : f ≠ some none) : dictGet f (some s) ≠ none := by
  rcases hfv : f with _ | v
  · simp [dictGet]
  · rcases v with _ | w
    · exact absurd hfv hf
    · simp [dictGet]

/-- The pdf-then-doi-then-id fallback of `map_openalex_item` produces a
string whenever the `id` key is not an explicit null. -/
theorem href_fallback_some (p d : Option String) (idf : Option (Option String))
    (hidf : idf ≠ some none) :
    ∃ s, (if truthy p then p
          else if truthy d then
            some ("https://doi.org/" ++ (pyStrOf d).replace "https://doi.org/" "")
          else dictGet idf (some "")) = some s := by
  by_cases hp : truthy p
  · obtain ⟨s, hs, _⟩ := truthy_iff.mp hp
    exact ⟨s, by rw [if_pos hp, hs]⟩
  · by_cases hd : truthy d
    · exact ⟨"https://doi.org/" ++ (pyStrOf d).replace "https://doi.org/" "",
        by rw [if_neg hp, if_pos hd]⟩
    · rcases hi : idf with _ | v
      · exact ⟨"", by simp [hp, hd, dictGet, hi]⟩
      · rcases v with _ | w
        · exact absurd hi hidf
        · exact ⟨w, by simp [hp, hd, dictGet, hi]⟩

/-- A Python `or` whose right operand is a string value is always a
string value. -/
theorem pyOr_exists (a : Option String) (u : String) :
    ∃ s, pyOr a (some u) = some s := by
  rcases a with _ | s
  · exact ⟨u, rfl⟩
  · by_cases hs : s = ""
    · exact ⟨u, by simp [pyOr, hs]⟩
    · exact ⟨s, by simp [pyOr, hs]⟩

/-- Producing a Result never fails when the `id` key is not an explicit
null: the pdf/doi/id fallback then yields a string href. -/
theorem oa_href_value_some (raw : OpenAlexRaw) (hid : raw.id ≠ some none) :
    ∃ s, oa_href_value raw = some s := by
  unfold oa_href_value
  exact href_fallback_some _ _ raw.id hid

/-- C9, counterexample: an OpenAlex payload whose `title` key holds an
explicit JSON null produces a Result (the payload is otherwise valid)
whose title is null — the `"Untitled Paper"` placeholder is not
substituted, because `raw.get("title", default)` only falls back when the
key is absent. -/
theorem mapper_null_title_c9_cex :
    (map_openalex_item oaNullTitle).map SearchResult.title = some none ∧
    (map_openalex_item oaNullTitle).map SearchResult.title
      ≠ some (some "Untitled Paper") := by
  exact ⟨rfl, by decide⟩

/-- C9, amended: every Result the OpenAlex, Zenodo and arXiv mappers
actually produce has a string `href` and a list-of-strings `authors`,
possibly empty, never null (enforced by the `SearchResult` schema: a
payload that would put a Python `None` there makes the constructor raise
and no Result is produced — for OpenAlex this happens exactly on an
explicit null `id` with no pdf/doi, while the Zenodo href always falls
back to the record URL); but the `Untitled` placeholder is substituted
for `title` only when the title key is absent from the payload — an
explicit null title propagates a null title into the produced Result
(OpenAlex, Zenodo). -/
theorem mapper_field_presence_c9 :
    (∀ raw r, map_openalex_item raw = some r →
      (raw.title = none → r.title = some "Untitled Paper") ∧
      (raw.title ≠ some none → r.title ≠ none)) ∧
    (∀ raw, map_openalex_item raw = none → raw.id = some none) ∧
    (∀ zraw r, map_zenodo zraw = some r →
      ((zen_metadata zraw).title = none → r.title = some "Untitled Dataset") ∧
      ((zen_metadata zraw).title ≠ some none → r.title ≠ none)) ∧
    (∀ zraw, ∃ s, zen_href_value zraw = some s) ∧
    (∀ e, (map_arxiv e).title = some e.title.trim ∧
      (map_arxiv e).href = e.id ∧ (map_arxiv e).authors = e.authors) := by
  refine ⟨?_, ?_, ?_, ?_, fun e => ⟨rfl, rfl, rfl⟩⟩
  · intro raw r hr
    unfold map_openalex_item at hr
    rcases hh : oa_href_value raw with _ | h
    · rw [hh] at hr
      exact absurd hr (by simp)
    · rw [hh] at hr
      have hrr := Option.some.inj hr
      constructor
      · intro h0
        rw [← hrr]
        show dictGet raw.title (some "Untitled Paper") = some "Untitled Paper"
        rw [h0]
        rfl
      · intro hne
        rw [← hrr]
        show dictGet raw.title (some "Untitled Paper") ≠ none
        exact dictGet_ne_none raw.title "Untitled Paper" hne
  · intro raw h0
    by_contra hne
    obtain ⟨s, hs⟩ := oa_href_value_some raw hne
    unfold map_openalex_item at h0
    rw [hs] at h0
    simp at h0
  · intro zraw r hr
    unfold map_zenodo at hr
    rcases hh : zen_href_value zraw with _ | h
    · rw [hh] at hr
      exact absurd hr (by simp)
    · rw [hh] at hr
      by_cases hall : (zen_author_values zraw).all Option.isSome
      · simp only [if_pos hall] at hr
        have hrr := Option.some.inj hr
        constructor
        · intro h0
          rw [← hrr]
          show dictGet (zen_metadata zraw).title (some "Untitled Dataset")
            = some "Untitled Dataset"
          rw [h0]
          rfl
        · intro hne
          rw [← hrr]
          show dictGet (zen_metadata zraw).title (some "Untitled Dataset") ≠ none
          exact dictGet_ne_none _ "Untitled Dataset" hne
      · simp only [if_neg hall] at hr
        exact absurd hr (by simp)
  · intro zraw
    unfold zen_href_value
    exact pyOr_exists _ _

/-- Witness for C9 on fully sparse payloads (every key absent): a Result
is produced and the placeholders and fallbacks fire. -/
theorem mapper_field_presence_c9_witness :
    ((map_openalex_item oaSparse).map SearchResult.title
      = some (some "Untitled Paper")) ∧
    ((map_zenodo zenSparse).map SearchResult.title
      = some (some "Untitled Dataset")) ∧
    ((map_zenodo zenSparse).map SearchResult.href
      = some "https://zenodo.org/record/") ∧
    ((map_arxiv arxSparse).href = "") := by
  have h := mapper_field_presence_c9
  obtain ⟨r1, hr1⟩ : ∃ r, map_openalex_item oaSparse = some r := ⟨_, rfl⟩
  obtain ⟨r2, hr2⟩ : ∃ r, map_zenodo zenSparse = some r := ⟨_, rfl⟩
  have ht1 := (h.1 oaSparse r1 hr1).1 rfl
  have ht2 := (h.2.2.1 zenSparse r2 hr2).1 rfl
  refine ⟨?_, ?_, by decide, ?_⟩
  · rw [hr1]
    simp [ht1]
  · rw [hr2]
    simp [ht2]
  · rw [(h.2.2.2.2 arxSparse).2.1]
    rfl

end SearchTheScience
